import Mathlib

/-!
Verification of the GraphQL `@authPolicy` directive evaluator
(`traverseAndEvaluateDirectives` and its helpers).

The evaluator walks a parsed GraphQL document against a schema and, for every
selected field whose schema definition carries an `authPolicy` directive,
records the field name, the name of the parent type the field was looked up
on, and the scope strings extracted from the directive's `scopes` argument.
In the source the "record" is the pair of console-log calls made by
`evaluateAuthDirective`; here it is the `Requirement` structure, and the
evaluator returns the ordered list of records instead of logging them.

The source recursion has no termination guard, so the Lean embedding takes a
fuel argument: every recursive step consumes one unit of fuel, `none` means
the fuel ran out.  A run of the source terminates with a given record list
exactly when some fuel bound returns `some` of that list; a run of the
source that recurses forever is a computation that returns `none` for every
fuel bound.
-/

/-- Kind of a GraphQL value node, as far as `evaluateAuthDirective` inspects
it: the source only distinguishes `StringValue`, `ListValue` and
everything else (`IntValue`, `BooleanValue`, ...). -/
inductive GValue where
  | stringValue (value : String)
  | listValue (values : List GValue)
  | otherValue
deriving Repr

/-- A directive argument node: `arg.name.value` and `arg.value`. -/
structure Argument where
  name : String
  value : GValue
deriving Repr

/-- A `ConstDirectiveNode`: `directive.name.value` and
`directive.arguments` (the source treats a missing argument array and an
empty one the same way, `find` on nothing yields nothing). -/
structure ConstDirectiveNode where
  name : String
  arguments : List Argument
deriving Repr

/-- A field definition's declared return type, possibly wrapped in
list / non-null modifiers. -/
inductive TypeRef where
  | named (name : String)
  | listOf (ofType : TypeRef)
  | nonNull (ofType : TypeRef)
deriving Repr

/-- Model of `getNamedType(fieldDef.type)`: unwrap list / non-null wrappers down to
the underlying named type.  The embedding keeps types by name and resolves
the name in the schema at the point of use. -/
def getNamedTypeName : TypeRef → String
  | TypeRef.named n => n
  | TypeRef.listOf t => getNamedTypeName t
  | TypeRef.nonNull t => getNamedTypeName t

/-- A schema field definition: its name, return type, and the directives of
its AST node (`fieldDef.astNode.directives`; an absent AST node or absent
directive array behaves like the empty list). -/
structure FieldDef where
  name : String
  type : TypeRef
  directives : List ConstDirectiveNode
deriving Repr

/-- A named schema type.  Object and interface types own a field map
(`getFields()`); unions, scalars and enums have none. -/
inductive TypeDef where
  | objectType (name : String) (fields : List FieldDef)
  | interfaceType (name : String) (fields : List FieldDef)
  | unionType (name : String) (types : List String)
  | scalarType (name : String)
  | enumType (name : String)
deriving Repr

/-- The `name` of a schema type (`parentType.name`). -/
def typeDefName : TypeDef → String
  | TypeDef.objectType n _ => n
  | TypeDef.interfaceType n _ => n
  | TypeDef.unionType n _ => n
  | TypeDef.scalarType n => n
  | TypeDef.enumType n => n

/-- Predicate `isObjectType` from the source. -/
def isObjectType : TypeDef → Bool
  | TypeDef.objectType _ _ => true
  | _ => false

/-- Predicate `isInterfaceType` from the source. -/
def isInterfaceType : TypeDef → Bool
  | TypeDef.interfaceType _ _ => true
  | _ => false

/-- Predicate `isUnionType` from the source. -/
def isUnionType : TypeDef → Bool
  | TypeDef.unionType _ _ => true
  | _ => false

/-- The composite-type test the source writes inline as
`isObjectType(t) || isInterfaceType(t) || isUnionType(t)`. -/
def isComposite (t : TypeDef) : Bool :=
  isObjectType t || isInterfaceType t || isUnionType t

/-- The field map of a parent type, when it has one.  In `checkField` the
source fills `fields` for object and interface parents, returns early for a
union parent, and returns early when `fields` stayed undefined; both early
returns are the `none` case here. -/
def fieldsOf : TypeDef → Option (List FieldDef)
  | TypeDef.objectType _ fs => some fs
  | TypeDef.interfaceType _ fs => some fs
  | TypeDef.unionType _ _ => none
  | TypeDef.scalarType _ => none
  | TypeDef.enumType _ => none

/-- A `GraphQLSchema`: its named types and the names of its root types
(`getQueryType()` / `getMutationType()` / `getSubscriptionType()` resolve
these names in the type map). -/
structure Schema where
  types : List TypeDef
  queryTypeName : Option String
  mutationTypeName : Option String
  subscriptionTypeName : Option String
deriving Repr

/-- Model of `schema.getType(typeName)`. -/
def getType (schema : Schema) (name : String) : Option TypeDef :=
  schema.types.find? (fun t => typeDefName t = name)

/-- A selection inside a selection set: a field (with its optional nested
selection set), an inline fragment (optional type condition), or a fragment
spread (reference by name). -/
inductive Selection where
  | field (name : String) (selectionSet : Option (List Selection))
  | inlineFragment (typeCondition : Option String) (selectionSet : List Selection)
  | fragmentSpread (name : String)
deriving Repr

/-- Kind of an operation, `operation.operation`. -/
inductive OperationType where
  | query
  | mutation
  | subscription
deriving Repr, DecidableEq

/-- An `OperationDefinitionNode` (the operation's optional name plays no
role in the evaluator and is omitted). -/
structure OperationDef where
  operation : OperationType
  selectionSet : List Selection
deriving Repr

/-- A `FragmentDefinitionNode`: in the GraphQL AST the type condition of a
fragment definition is always present. -/
structure FragmentDef where
  name : String
  typeCondition : String
  selectionSet : List Selection
deriving Repr

/-- One entry of `document.definitions`. -/
inductive Definition where
  | operationDefinition (op : OperationDef)
  | fragmentDefinition (frag : FragmentDef)
deriving Repr

/-- The output unit: the observable effect of one `evaluateAuthDirective`
call.  `scopes` mirrors the call's second log line: `some` of the extracted
strings when the `scopes` argument was a list value, `none` when it was
absent or not a list (no scope list is produced then). -/
structure Requirement where
  fieldName : String
  typeName : String
  scopes : Option (List String)
deriving Repr, DecidableEq

/-- The `scopes`-argument processing inside `evaluateAuthDirective`:
find the first argument named `scopes`; when its value is a `ListValue`,
keep the entries of kind `StringValue` (the source's `filter` + `map` over
the value list, fused into `filterMap` here) in order; otherwise no scope
list is produced. -/
def extractScopes (directive : ConstDirectiveNode) : Option (List String) :=
  match directive.arguments.find? (fun arg => arg.name = "scopes") with
  | some arg =>
    match arg.value with
    | GValue.listValue vs =>
      some (vs.filterMap (fun v =>
        match v with
        | GValue.stringValue s => some s
        | _ => none))
    | _ => none
  | none => none

/-- Model of `evaluateAuthDirective`: produce the requirement record for one
directive occurrence on one field occurrence. -/
def evaluateAuthDirective (fieldName : String) (parentTypeName : String)
    (directive : ConstDirectiveNode) : Requirement :=
  { fieldName := fieldName, typeName := parentTypeName, scopes := extractScopes directive }

/-- The directive loop of `checkField`: one `evaluateAuthDirective` call per
directive whose name is `authPolicy`, in declaration order. -/
def authDirectiveRecords (fieldName : String) (parentTypeName : String)
    (directives : List ConstDirectiveNode) : List Requirement :=
  (directives.filter (fun d => d.name = "authPolicy")).map
    (fun d => evaluateAuthDirective fieldName parentTypeName d)

/-- The fragment registry `fragmentMap` built from `document.definitions`:
forward iteration with overwrite, so a later definition of the same name
wins.  The recursive reading looks the name up in the tail first and falls
back to the head. -/
def buildFragmentMap : List Definition → String → Option FragmentDef
  | [], _ => none
  | d :: rest, fragmentName =>
    match buildFragmentMap rest fragmentName with
    | some f => some f
    | none =>
      match d with
      | Definition.fragmentDefinition f =>
        if f.name = fragmentName then some f else none
      | Definition.operationDefinition _ => none

/-- The type-condition narrowing both `checkInlineFragment` and
`checkFragmentSpread` perform: resolve the condition's type name in the
schema and use it when it is composite, otherwise keep the current parent
type. -/
def resolveCondition (schema : Schema) (parentType : TypeDef) (typeName : String) : TypeDef :=
  match getType schema typeName with
  | some t => if isComposite t then t else parentType
  | none => parentType

mutual

/-- Model of `checkSelectionSet`: dispatch every selection of the set in document
order and concatenate the records.  One unit of fuel per call. -/
def checkSelectionSet (env : String → Option FragmentDef) (schema : Schema) :
    Nat → TypeDef → List Selection → Option (List Requirement)
  | 0, _, _ => none
  | Nat.succ _, _, [] => some []
  | Nat.succ n, parentType, s :: rest =>
    (checkSelection env schema n parentType s).bind (fun r =>
      (checkSelectionSet env schema n parentType rest).map (fun rs => r ++ rs))

/-- The `switch (selection.kind)` dispatch inside `checkSelectionSet`. -/
def checkSelection (env : String → Option FragmentDef) (schema : Schema) :
    Nat → TypeDef → Selection → Option (List Requirement)
  | 0, _, _ => none
  | Nat.succ n, parentType, Selection.field f oss =>
    checkField env schema n parentType f oss
  | Nat.succ n, parentType, Selection.inlineFragment tc ss =>
    checkInlineFragment env schema n parentType tc ss
  | Nat.succ n, parentType, Selection.fragmentSpread f =>
    checkFragmentSpread env schema n parentType f

/-- Model of `checkField`: skip when the parent has no field map (union parent, or
the defensive undefined check); skip when the field name is not found;
collect one record per `authPolicy` directive on the definition; recurse
into the nested selection set only when it exists and the unwrapped return
type is composite. -/
def checkField (env : String → Option FragmentDef) (schema : Schema) :
    Nat → TypeDef → String → Option (List Selection) → Option (List Requirement)
  | 0, _, _, _ => none
  | Nat.succ n, parentType, fieldName, oss =>
    match fieldsOf parentType with
    | none => some []
    | some fields =>
      match fields.find? (fun d => d.name = fieldName) with
      | none => some []
      | some fieldDef =>
        match oss with
        | none => some (authDirectiveRecords fieldName (typeDefName parentType) fieldDef.directives)
        | some ss =>
          match getType schema (getNamedTypeName fieldDef.type) with
          | some fieldType =>
            if isComposite fieldType then
              (checkSelectionSet env schema n fieldType ss).map
                (fun rs => authDirectiveRecords fieldName (typeDefName parentType) fieldDef.directives ++ rs)
            else
              some (authDirectiveRecords fieldName (typeDefName parentType) fieldDef.directives)
          | none => some (authDirectiveRecords fieldName (typeDefName parentType) fieldDef.directives)

/-- Model of `checkInlineFragment`: narrow the parent through the type condition when
one is present, then traverse the fragment's selection set. -/
def checkInlineFragment (env : String → Option FragmentDef) (schema : Schema) :
    Nat → TypeDef → Option String → List Selection → Option (List Requirement)
  | 0, _, _, _ => none
  | Nat.succ n, parentType, tc, ss =>
    checkSelectionSet env schema n
      (match tc with
       | some tn => resolveCondition schema parentType tn
       | none => parentType)
      ss

/-- Model of `checkFragmentSpread`: resolve the name in the fragment registry (skip
when absent), narrow the parent through the fragment's type condition, then
traverse the fragment's selection set. -/
def checkFragmentSpread (env : String → Option FragmentDef) (schema : Schema) :
    Nat → TypeDef → String → Option (List Requirement)
  | 0, _, _ => none
  | Nat.succ n, parentType, fragmentName =>
    match env fragmentName with
    | none => some []
    | some fragmentDef =>
      checkSelectionSet env schema n
        (resolveCondition schema parentType fragmentDef.typeCondition)
        fragmentDef.selectionSet

end

/-- The root-type switch of `checkOperation`. -/
def rootTypeFor (schema : Schema) : OperationType → Option TypeDef
  | OperationType.query => schema.queryTypeName.bind (getType schema)
  | OperationType.mutation => schema.mutationTypeName.bind (getType schema)
  | OperationType.subscription => schema.subscriptionTypeName.bind (getType schema)

/-- Model of `checkOperation`: skip the operation when the schema has no root type
for its kind, otherwise walk its selection set from the root type. -/
def checkOperation (env : String → Option FragmentDef) (schema : Schema)
    (fuel : Nat) (operation : OperationDef) : Option (List Requirement) :=
  match rootTypeFor schema operation.operation with
  | none => some []
  | some rootType => checkSelectionSet env schema fuel rootType operation.selectionSet

/-- The final loop of `traverseAndEvaluateDirectives` over
`document.definitions`: run every operation definition, in document order. -/
def checkOperations (env : String → Option FragmentDef) (schema : Schema)
    (fuel : Nat) : List Definition → Option (List Requirement)
  | [] => some []
  | Definition.operationDefinition op :: rest =>
    (checkOperation env schema fuel op).bind (fun r =>
      (checkOperations env schema fuel rest).map (fun rs => r ++ rs))
  | Definition.fragmentDefinition _ :: rest => checkOperations env schema fuel rest
termination_by structural defs => defs

/-- Model of `traverseAndEvaluateDirectives`: build the fragment registry from the
document, then evaluate every operation against the schema.  The document
is its definition list. -/
def traverseAndEvaluateDirectives (fuel : Nat) (document : List Definition)
    (schema : Schema) : Option (List Requirement) :=
  checkOperations (buildFragmentMap document) schema fuel document

/-! ### The concrete scenario schema and documents -/

/-- An `@authPolicy(scopes: [...])` directive node with string-literal
scopes, as the demo SDL declares them. -/
def authPolicyDirective (scopes : List String) : ConstDirectiveNode :=
  { name := "authPolicy",
    arguments := [ { name := "scopes",
                     value := GValue.listValue (scopes.map GValue.stringValue) } ] }

/-- The `Query` type of the demo SDL in `buildAndParseSchema`. -/
def queryTypeDef : TypeDef :=
  TypeDef.objectType "Query"
    [ { name := "publicData", type := TypeRef.named "String", directives := [] },
      { name := "secretData", type := TypeRef.named "SecretData",
        directives := [authPolicyDirective ["read.secretData"]] } ]

/-- The `SecretData` type of the demo SDL. -/
def secretDataTypeDef : TypeDef :=
  TypeDef.objectType "SecretData"
    [ { name := "nestedOne", type := TypeRef.named "String", directives := [] },
      { name := "nestedTwo", type := TypeRef.named "Nested",
        directives := [authPolicyDirective ["read.nestedTwo"]] } ]

/-- The `Nested` type of the demo SDL. -/
def nestedTypeDef : TypeDef :=
  TypeDef.objectType "Nested"
    [ { name := "finalString", type := TypeRef.named "String", directives := [] } ]

/-- The `Mutation` type of the demo SDL. -/
def mutationTypeDef : TypeDef :=
  TypeDef.objectType "Mutation"
    [ { name := "doSomething", type := TypeRef.named "DoSomethingResult",
        directives := [authPolicyDirective ["manage.updateSomething"]] } ]

/-- The `DoSomethingResult` type of the demo SDL. -/
def doSomethingResultTypeDef : TypeDef :=
  TypeDef.objectType "DoSomethingResult"
    [ { name := "success", type := TypeRef.named "Boolean", directives := [] },
      { name := "nestedValue", type := TypeRef.named "String",
        directives := [authPolicyDirective ["read.nestedValueResult"]] } ]

/-- The schema built by `buildAndParseSchema`: the five object types of the
demo SDL plus the built-in scalars it mentions; `buildSchema` wires the
types named `Query` and `Mutation` as root types and leaves the
subscription root unset. -/
def exampleSchema : Schema :=
  { types := [ queryTypeDef, secretDataTypeDef, nestedTypeDef, mutationTypeDef,
               doSomethingResultTypeDef, TypeDef.scalarType "String",
               TypeDef.scalarType "Boolean" ],
    queryTypeName := some "Query",
    mutationTypeName := some "Mutation",
    subscriptionTypeName := none }

/-- The operation `ExampleQuery { publicData secretData { nestedOne nestedTwo { finalString } } }`. -/
def exampleQueryOp : OperationDef :=
  { operation := OperationType.query,
    selectionSet :=
      [ Selection.field "publicData" none,
        Selection.field "secretData" (some
          [ Selection.field "nestedOne" none,
            Selection.field "nestedTwo" (some [Selection.field "finalString" none]) ]) ] }

/-- The operation `ExampleMutation { doSomething { success nestedValue } }`. -/
def exampleMutationOp : OperationDef :=
  { operation := OperationType.mutation,
    selectionSet :=
      [ Selection.field "doSomething" (some
          [ Selection.field "success" none,
            Selection.field "nestedValue" none ]) ] }

/-- The two-operation document of the concrete scenario, with `ExampleQuery`
first and `ExampleMutation` second. -/
def exampleDocument : List Definition :=
  [ Definition.operationDefinition exampleQueryOp,
    Definition.operationDefinition exampleMutationOp ]

/-! ### Documents exercising the edge behaviors under scrutiny -/

/-- A fragment that spreads itself: `fragment A on Query { ...A }`. -/
def selfCycleFragment : FragmentDef :=
  { name := "A", typeCondition := "Query", selectionSet := [Selection.fragmentSpread "A"] }

/-- A document whose single query spreads the self-cyclic fragment. -/
def selfCycleDocument : List Definition :=
  [ Definition.fragmentDefinition selfCycleFragment,
    Definition.operationDefinition
      { operation := OperationType.query, selectionSet := [Selection.fragmentSpread "A"] } ]

/-- The fragment `CycleA on Query { ...CycleB }`. -/
def cycleFragmentA : FragmentDef :=
  { name := "CycleA", typeCondition := "Query", selectionSet := [Selection.fragmentSpread "CycleB"] }

/-- The fragment `CycleB on Query { ...CycleA }`. -/
def cycleFragmentB : FragmentDef :=
  { name := "CycleB", typeCondition := "Query", selectionSet := [Selection.fragmentSpread "CycleA"] }

/-- A document with the two-fragment cycle `CycleA` / `CycleB` and a query
spreading `CycleA`. -/
def pairCycleDocument : List Definition :=
  [ Definition.fragmentDefinition cycleFragmentA,
    Definition.fragmentDefinition cycleFragmentB,
    Definition.operationDefinition
      { operation := OperationType.query, selectionSet := [Selection.fragmentSpread "CycleA"] } ]

/-- A schema whose query type carries a single field `f: String` holding an
arbitrary list of directives. -/
def directiveListSchema (directives : List ConstDirectiveNode) : Schema :=
  { types := [ TypeDef.objectType "Query"
                 [ { name := "f", type := TypeRef.named "String", directives := directives } ],
               TypeDef.scalarType "String" ],
    queryTypeName := some "Query",
    mutationTypeName := none,
    subscriptionTypeName := none }

/-- The one-field document `query { f }`. -/
def fieldDocument : List Definition :=
  [ Definition.operationDefinition
      { operation := OperationType.query, selectionSet := [Selection.field "f" none] } ]

/-- A schema whose query type carries `f: String` with one `authPolicy`
directive whose `scopes` argument holds an arbitrary value node. -/
def scopeValueSchema (v : GValue) : Schema :=
  directiveListSchema [ { name := "authPolicy", arguments := [ { name := "scopes", value := v } ] } ]

/-- The string entries of a directive value list, in order: what the source
keeps of a `ListValue` when extracting required scopes. -/
def stringEntries (vs : List GValue) : List String :=
  vs.filterMap (fun v =>
    match v with
    | GValue.stringValue s => some s
    | _ => none)

/-- A document with two fragment definitions both named `Dup` (the first
selects `publicData`, the second selects `secretData`) and a query spreading
`Dup`. -/
def duplicateFirstFragment : FragmentDef :=
  { name := "Dup", typeCondition := "Query", selectionSet := [Selection.field "publicData" none] }

/-- The second, shadowing definition of the fragment named `Dup`. -/
def duplicateSecondFragment : FragmentDef :=
  { name := "Dup", typeCondition := "Query", selectionSet := [Selection.field "secretData" none] }

/-- The duplicate-fragment document. -/
def duplicateFragmentDocument : List Definition :=
  [ Definition.fragmentDefinition duplicateFirstFragment,
    Definition.fragmentDefinition duplicateSecondFragment,
    Definition.operationDefinition
      { operation := OperationType.query, selectionSet := [Selection.fragmentSpread "Dup"] } ]

/-- The registry reading the claim describes: the last fragment definition
with the given name, in document order. -/
def lastFragmentDefinition (defs : List Definition) (fragmentName : String) : Option FragmentDef :=
  defs.reverse.findSome? (fun d =>
    match d with
    | Definition.fragmentDefinition f => if f.name = fragmentName then some f else none
    | Definition.operationDefinition _ => none)
/-! ### Replacing a fragment spread by its inline expansion -/

mutual

/-- Relation `SelRepl F fd s s'`: `s'` is `s` with some spreads of the fragment named
`F` (whose registry entry is `fd`) replaced by the inline fragment carrying
`fd`'s type condition and the literal copy of `fd`'s selection set. -/
inductive SelRepl (F : String) (fd : FragmentDef) : Selection → Selection → Prop where
  | srefl (s : Selection) : SelRepl F fd s s
  | sspread :
      SelRepl F fd (Selection.fragmentSpread F)
        (Selection.inlineFragment (some fd.typeCondition) fd.selectionSet)
  | sfield (f : String) (oss oss' : Option (List Selection)) :
      OptSelsRepl F fd oss oss' → SelRepl F fd (Selection.field f oss) (Selection.field f oss')
  | sinline (tc : Option String) (ss ss' : List Selection) :
      SelsRepl F fd ss ss' →
      SelRepl F fd (Selection.inlineFragment tc ss) (Selection.inlineFragment tc ss')

/-- Pointwise lifting of `SelRepl` to selection sets. -/
inductive SelsRepl (F : String) (fd : FragmentDef) : List Selection → List Selection → Prop where
  | snil : SelsRepl F fd [] []
  | scons (s s' : Selection) (ss ss' : List Selection) :
      SelRepl F fd s s' → SelsRepl F fd ss ss' → SelsRepl F fd (s :: ss) (s' :: ss')

/-- Lifting of `SelsRepl` to optional nested selection sets. -/
inductive OptSelsRepl (F : String) (fd : FragmentDef) :
    Option (List Selection) → Option (List Selection) → Prop where
  | onone : OptSelsRepl F fd none none
  | osome (ss ss' : List Selection) :
      SelsRepl F fd ss ss' → OptSelsRepl F fd (some ss) (some ss')

end

/-- Relation `DocRepl F fd d d'`: `d'` is the document `d` with some spreads of `F`
replaced by the inline expansion of `fd` — inside operation selection sets
and inside the bodies of fragment definitions alike (a fragment definition
keeps its name and type condition, only its selection set is rewritten). -/
inductive DocRepl (F : String) (fd : FragmentDef) : List Definition → List Definition → Prop where
  | dnil : DocRepl F fd [] []
  | doper (op op' : OperationDef) (rest rest' : List Definition) :
      op.operation = op'.operation →
      SelsRepl F fd op.selectionSet op'.selectionSet →
      DocRepl F fd rest rest' →
      DocRepl F fd (Definition.operationDefinition op :: rest)
        (Definition.operationDefinition op' :: rest')
  | dfrag (g g' : FragmentDef) (rest rest' : List Definition) :
      g.name = g'.name →
      g.typeCondition = g'.typeCondition →
      SelsRepl F fd g.selectionSet g'.selectionSet →
      DocRepl F fd rest rest' →
      DocRepl F fd (Definition.fragmentDefinition g :: rest)
        (Definition.fragmentDefinition g' :: rest')

/-- Relation between one entry of the original registry and the same-name
entry of the rewritten document's registry: both absent, or both present
with the same type condition and `SelsRepl`-related bodies (equal entries
are the reflexive case). -/
def EnvEntryRepl (F : String) (fd : FragmentDef) :
    Option FragmentDef → Option FragmentDef → Prop
  | none, none => True
  | some g, some g' =>
    g.typeCondition = g'.typeCondition ∧ SelsRepl F fd g.selectionSet g'.selectionSet
  | _, _ => False

/-- The fragment `SecretFields on SecretData { nestedTwo { finalString } }`. -/
def secretFieldsFragment : FragmentDef :=
  { name := "SecretFields", typeCondition := "SecretData",
    selectionSet := [Selection.field "nestedTwo" (some [Selection.field "finalString" none])] }

/-- The document `query { secretData { ...SecretFields } }` together with the fragment
definition. -/
def spreadExampleDocument : List Definition :=
  [ Definition.fragmentDefinition secretFieldsFragment,
    Definition.operationDefinition
      { operation := OperationType.query,
        selectionSet :=
          [Selection.field "secretData" (some [Selection.fragmentSpread "SecretFields"])] } ]

/-- The same document with the spread replaced by the inline expansion
`... on SecretData { nestedTwo { finalString } }`. -/
def inlineExampleDocument : List Definition :=
  [ Definition.fragmentDefinition secretFieldsFragment,
    Definition.operationDefinition
      { operation := OperationType.query,
        selectionSet :=
          [Selection.field "secretData" (some
            [Selection.inlineFragment (some secretFieldsFragment.typeCondition)
              secretFieldsFragment.selectionSet])] } ]

/-- The fragment `Inner on SecretData { nestedTwo { finalString } }`. -/
def innerFragment : FragmentDef :=
  { name := "Inner", typeCondition := "SecretData",
    selectionSet := [Selection.field "nestedTwo" (some [Selection.field "finalString" none])] }

/-- The fragment `Outer on Query { secretData { ...Inner } }`, spreading
`Inner` inside its own body. -/
def outerFragment : FragmentDef :=
  { name := "Outer", typeCondition := "Query",
    selectionSet := [Selection.field "secretData" (some [Selection.fragmentSpread "Inner"])] }

/-- The fragment `Outer` with the spread of `Inner` inside its body replaced
by the inline expansion of `Inner`. -/
def outerFragmentExpanded : FragmentDef :=
  { name := "Outer", typeCondition := "Query",
    selectionSet := [Selection.field "secretData" (some
      [Selection.inlineFragment (some innerFragment.typeCondition)
        innerFragment.selectionSet])] }

/-- The document `query { ...Outer }` with fragments `Inner` and `Outer`,
where `Outer` spreads `Inner` inside its body. -/
def nestedSpreadDocument : List Definition :=
  [ Definition.fragmentDefinition innerFragment,
    Definition.fragmentDefinition outerFragment,
    Definition.operationDefinition
      { operation := OperationType.query,
        selectionSet := [Selection.fragmentSpread "Outer"] } ]

/-- The same document with the spread of `Inner` inside `Outer`'s body
replaced by its inline expansion. -/
def nestedInlineDocument : List Definition :=
  [ Definition.fragmentDefinition innerFragment,
    Definition.fragmentDefinition outerFragmentExpanded,
    Definition.operationDefinition
      { operation := OperationType.query,
        selectionSet := [Selection.fragmentSpread "Outer"] } ]

/-- A fragment whose type condition names a type unknown to the example
schema. -/
def missingConditionFragment : FragmentDef :=
  { name := "G", typeCondition := "NoSuchType",
    selectionSet := [Selection.field "secretData" none] }

/-- A document registering `missingConditionFragment` and using it both as a
spread and as the matching inline fragment. -/
def missingConditionDocument : List Definition :=
  [ Definition.fragmentDefinition missingConditionFragment,
    Definition.operationDefinition
      { operation := OperationType.query,
        selectionSet :=
          [ Selection.inlineFragment (some "NoSuchType") [Selection.field "secretData" none],
            Selection.fragmentSpread "G" ] } ]
/-! ### Helper lemmas -/

/-- When the condition's type name resolves to nothing, or to a
non-composite type, the narrowing keeps the current parent type. -/
theorem resolveCondition_keeps_parent (schema : Schema) (p : TypeDef) (tn : String)
    (h : ∀ t, getType schema tn = some t → isComposite t = false) :
    resolveCondition schema p tn = p := by
  unfold resolveCondition
  cases hg : getType schema tn with
  | none => rfl
  | some t => simp [h t hg]

/-- Lemma: `findSome?` over an append tries the first list first. -/
theorem findSome?_append_of {α β : Type} (g : α → Option β) :
    ∀ (l₁ l₂ : List α),
      (l₁ ++ l₂).findSome? g
        = match l₁.findSome? g with
          | some b => some b
          | none => l₂.findSome? g := by
  intro l₁ l₂
  induction l₁ with
  | nil => simp [List.findSome?_nil]
  | cons a l ih =>
    simp only [List.cons_append, List.findSome?_cons]
    cases g a with
    | none => exact ih
    | some b => rfl

/-! ### Claim theorems -/

/-- C1: evaluating the two-operation scenario document (`ExampleQuery`
first, `ExampleMutation` second) against the scenario schema yields exactly
four requirement records, in this order: `secretData` on `Query` with
`["read.secretData"]`, `nestedTwo` on `SecretData` with
`["read.nestedTwo"]`, `doSomething` on `Mutation` with
`["manage.updateSomething"]`, and `nestedValue` on `DoSomethingResult` with
`["read.nestedValueResult"]`.  Fuel 32 is enough for this document: the run
terminates with `some` of that list. -/
theorem example_document_four_requirements :
    traverseAndEvaluateDirectives 32 exampleDocument exampleSchema
      = some [ { fieldName := "secretData", typeName := "Query",
                 scopes := some ["read.secretData"] },
               { fieldName := "nestedTwo", typeName := "SecretData",
                 scopes := some ["read.nestedTwo"] },
               { fieldName := "doSomething", typeName := "Mutation",
                 scopes := some ["manage.updateSomething"] },
               { fieldName := "nestedValue", typeName := "DoSomethingResult",
                 scopes := some ["read.nestedValueResult"] } ] := by
  rfl

/-- C7: a field selection whose parent type is a union is skipped outright:
no requirement record is produced and the nested selection set, if any, is
never entered, whatever the union's member types and whatever the field.
(`checkSelection` at fuel `n+2` so its dispatch step and the `checkField`
step both have fuel.) -/
theorem union_parent_field_selection_skipped
    (env : String → Option FragmentDef) (schema : Schema) (n : Nat)
    (unionName : String) (memberTypes : List String) (f : String)
    (oss : Option (List Selection)) :
    checkSelection env schema (n + 2) (TypeDef.unionType unionName memberTypes)
        (Selection.field f oss) = some []
    ∧ checkField env schema (n + 1) (TypeDef.unionType unionName memberTypes) f oss
        = some [] :=
  ⟨rfl, rfl⟩

/-- C6: when an inline fragment's type condition, or a (registered) spread
fragment's type condition, names a type that is unknown to the schema or
not composite, the fragment's selection set is still traversed, under the
unchanged parent type. -/
theorem unresolvable_type_condition_keeps_parent
    (env : String → Option FragmentDef) (schema : Schema) (n : Nat) (p : TypeDef)
    (tn : String) (ss : List Selection) (F : String) (fdef : FragmentDef)
    (hunres : ∀ t, getType schema tn = some t → isComposite t = false) :
    checkInlineFragment env schema (n + 1) p (some tn) ss
      = checkSelectionSet env schema n p ss
    ∧ (env F = some fdef → fdef.typeCondition = tn →
       checkFragmentSpread env schema (n + 1) p F
         = checkSelectionSet env schema n p fdef.selectionSet) := by
  constructor
  · simp [checkInlineFragment, resolveCondition_keeps_parent schema p tn hunres]
  · intro hF htc
    simp [checkFragmentSpread, hF, htc, resolveCondition_keeps_parent schema p tn hunres]

/-- Witness for C6 at `NoSuchType`, a name the example schema does not
declare, via both the inline fragment and the registered fragment `G` of
`missingConditionDocument`. -/
theorem unresolvable_type_condition_keeps_parent_witness :
    checkInlineFragment (buildFragmentMap missingConditionDocument) exampleSchema 6
        queryTypeDef (some "NoSuchType") [Selection.field "secretData" none]
      = checkSelectionSet (buildFragmentMap missingConditionDocument) exampleSchema 5
          queryTypeDef [Selection.field "secretData" none]
    ∧ checkFragmentSpread (buildFragmentMap missingConditionDocument) exampleSchema 6
        queryTypeDef "G"
      = checkSelectionSet (buildFragmentMap missingConditionDocument) exampleSchema 5
          queryTypeDef missingConditionFragment.selectionSet := by
  have h := unresolvable_type_condition_keeps_parent
    (buildFragmentMap missingConditionDocument) exampleSchema 5 queryTypeDef
    "NoSuchType" [Selection.field "secretData" none] "G" missingConditionFragment
    (fun t ht => by
      rw [show getType exampleSchema "NoSuchType" = none from rfl] at ht
      exact Option.noConfusion ht)
  exact ⟨h.1, h.2 rfl rfl⟩

/-- C10: a field selection carrying a nested selection set, whose resolved
field definition's unwrapped return type is unknown or not composite, does
not recurse: the result is exactly the field's own directive records (the
directive is still evaluated), the same as for the selection without the
nested set. -/
theorem non_composite_return_no_recursion
    (env : String → Option FragmentDef) (schema : Schema) (n : Nat) (p : TypeDef)
    (fields : List FieldDef) (f : String) (fieldDef : FieldDef) (ss : List Selection)
    (hfields : fieldsOf p = some fields)
    (hfind : fields.find? (fun d => d.name = f) = some fieldDef)
    (hnc : ∀ t, getType schema (getNamedTypeName fieldDef.type) = some t →
            isComposite t = false) :
    checkField env schema (n + 1) p f (some ss)
      = some (authDirectiveRecords f (typeDefName p) fieldDef.directives)
    ∧ checkField env schema (n + 1) p f (some ss)
      = checkField env schema (n + 1) p f none := by
  have hbase : checkField env schema (n + 1) p f none
      = some (authDirectiveRecords f (typeDefName p) fieldDef.directives) := by
    simp only [checkField, hfields, hfind]
  have hsome : checkField env schema (n + 1) p f (some ss)
      = some (authDirectiveRecords f (typeDefName p) fieldDef.directives) := by
    simp only [checkField, hfields, hfind]
    cases hg : getType schema (getNamedTypeName fieldDef.type) with
    | none => rfl
    | some t => simp [hnc t hg]
  exact ⟨hsome, hsome.trans hbase.symm⟩

/-- Witness for C10 at `publicData` on `Query`, whose return type `String`
is a scalar, selected with a (structurally invalid but accepted) nested
selection set. -/
theorem non_composite_return_no_recursion_witness :
    checkField (buildFragmentMap exampleDocument) exampleSchema 6 queryTypeDef
        "publicData" (some [Selection.field "x" none])
      = some []
    ∧ checkField (buildFragmentMap exampleDocument) exampleSchema 6 queryTypeDef
        "publicData" (some [Selection.field "x" none])
      = checkField (buildFragmentMap exampleDocument) exampleSchema 6 queryTypeDef
          "publicData" none := by
  have h := non_composite_return_no_recursion
    (buildFragmentMap exampleDocument) exampleSchema 5 queryTypeDef
    (TypeDef.objectType "Query"
       [ { name := "publicData", type := TypeRef.named "String", directives := [] },
         { name := "secretData", type := TypeRef.named "SecretData",
           directives := [authPolicyDirective ["read.secretData"]] } ] |> fieldsOf |>.getD [])
    "publicData"
    { name := "publicData", type := TypeRef.named "String", directives := [] }
    [Selection.field "x" none] rfl rfl
    (fun t ht => by
      rw [show getType exampleSchema (getNamedTypeName (TypeRef.named "String"))
            = some (TypeDef.scalarType "String") from rfl] at ht
      cases ht
      rfl)
  exact ⟨h.1, h.2⟩

/-- C3 counterexample: with two `authPolicy` directives on `Query.f`
(scopes `["a"]` and `["b"]`), the engine emits one record per directive —
not the single record with the merged list `["a", "b"]` that the claim
predicts. -/
theorem two_auth_directives_not_merged :
    traverseAndEvaluateDirectives 8 fieldDocument
        (directiveListSchema [authPolicyDirective ["a"], authPolicyDirective ["b"]])
      = some [ { fieldName := "f", typeName := "Query", scopes := some ["a"] },
               { fieldName := "f", typeName := "Query", scopes := some ["b"] } ]
    ∧ traverseAndEvaluateDirectives 8 fieldDocument
        (directiveListSchema [authPolicyDirective ["a"], authPolicyDirective ["b"]])
      ≠ some [ { fieldName := "f", typeName := "Query", scopes := some ["a", "b"] } ] := by
  exact ⟨rfl, by decide⟩

/-- C3 (amended): for a field carrying any list of directives, the engine
emits one requirement record per directive named `authPolicy`, in directive
declaration order, each carrying that directive's own extracted scopes;
scope lists of multiple directives are never merged. -/
theorem one_record_per_auth_directive (directives : List ConstDirectiveNode) :
    traverseAndEvaluateDirectives 8 fieldDocument (directiveListSchema directives)
      = some ((directives.filter (fun d => d.name = "authPolicy")).map
          (fun d => evaluateAuthDirective "f" "Query" d)) := by
  have h : traverseAndEvaluateDirectives 8 fieldDocument (directiveListSchema directives)
      = some ((directives.filter (fun d => d.name = "authPolicy")).map
          (fun d => evaluateAuthDirective "f" "Query" d) ++ [] ++ []) := rfl
  rw [h, List.append_nil, List.append_nil]

/-- C4 counterexample: an `authPolicy` directive whose `scopes` value is the
list `["a", <non-string>]` is malformed per the claim (a list containing a
non-string entry), yet the extractor returns the partial list `["a"]`, not
the empty list. -/
theorem mixed_list_scopes_partial_not_empty :
    extractScopes { name := "authPolicy",
                    arguments := [ { name := "scopes",
                                     value := GValue.listValue
                                       [GValue.stringValue "a", GValue.otherValue] } ] }
      = some ["a"]
    ∧ some ["a"] ≠ some ([] : List String) := by
  exact ⟨rfl, by decide⟩

/-- C4 (amended): when the `scopes` value is a list, the non-string entries
are dropped and the string entries are kept in order (a partial list, empty
only when no entry is a string); when it is not a list, no scope list at
all is produced for the record.  Stated through the whole pipeline on the
one-field document. -/
theorem malformed_scopes_degrade :
    (∀ vs : List GValue,
       traverseAndEvaluateDirectives 8 fieldDocument
           (scopeValueSchema (GValue.listValue vs))
         = some [ { fieldName := "f", typeName := "Query",
                    scopes := some (stringEntries vs) } ])
    ∧ (∀ v : GValue, (∀ vs, v ≠ GValue.listValue vs) →
       traverseAndEvaluateDirectives 8 fieldDocument (scopeValueSchema v)
         = some [ { fieldName := "f", typeName := "Query", scopes := none } ]) := by
  constructor
  · intro vs
    rfl
  · intro v hv
    cases v with
    | stringValue s => rfl
    | listValue vs => exact absurd rfl (hv vs)
    | otherValue => rfl

/-- Witness for C4: the mixed list `["x", <non-string>]` yields the partial
list `["x"]`, and a non-list `scopes` value yields a record with no scope
list. -/
theorem malformed_scopes_degrade_witness :
    traverseAndEvaluateDirectives 8 fieldDocument
        (scopeValueSchema (GValue.listValue [GValue.stringValue "x", GValue.otherValue]))
      = some [ { fieldName := "f", typeName := "Query", scopes := some ["x"] } ]
    ∧ traverseAndEvaluateDirectives 8 fieldDocument (scopeValueSchema GValue.otherValue)
      = some [ { fieldName := "f", typeName := "Query", scopes := none } ] := by
  constructor
  · exact (malformed_scopes_degrade.1 [GValue.stringValue "x", GValue.otherValue]).trans
      (by decide)
  · exact malformed_scopes_degrade.2 GValue.otherValue (fun vs h => by cases h)

/-- C9: the fragment registry is built by forward iteration with overwrite,
so looking a name up yields the last fragment definition with that name in
document order, and a spread of a duplicated name therefore expands the
last definition. -/
theorem fragment_map_last_definition_wins :
    (∀ (defs : List Definition) (fragmentName : String),
       buildFragmentMap defs fragmentName = lastFragmentDefinition defs fragmentName)
    ∧ ∀ (defs : List Definition) (fragmentName : String) (schema : Schema) (n : Nat)
        (p : TypeDef) (fdef : FragmentDef),
        buildFragmentMap defs fragmentName = some fdef →
        checkFragmentSpread (buildFragmentMap defs) schema (n + 1) p fragmentName
          = checkSelectionSet (buildFragmentMap defs) schema n
              (resolveCondition schema p fdef.typeCondition) fdef.selectionSet := by
  constructor
  · intro defs fragmentName
    induction defs with
    | nil => rfl
    | cons d rest ih =>
      show (match buildFragmentMap rest fragmentName with
            | some f => some f
            | none =>
              match d with
              | Definition.fragmentDefinition f =>
                if f.name = fragmentName then some f else none
              | Definition.operationDefinition _ => none)
          = lastFragmentDefinition (d :: rest) fragmentName
      rw [ih]
      unfold lastFragmentDefinition
      rw [List.reverse_cons, findSome?_append_of]
      cases (rest.reverse.findSome? fun x =>
          match x with
          | Definition.fragmentDefinition f =>
            if f.name = fragmentName then some f else none
          | Definition.operationDefinition _ => none) with
      | some f => rfl
      | none =>
        cases d with
        | operationDefinition op => rfl
        | fragmentDefinition f =>
          simp only [List.findSome?_cons, List.findSome?_nil]
          cases hq : (if f.name = fragmentName then some f else none) with
          | some g => rfl
          | none => rfl
  · intro defs fragmentName schema n p fdef h
    simp [checkFragmentSpread, h]

/-- Witness for C9 on the duplicate-fragment document: the registry yields
the second (last) definition of `Dup`, matching the last-in-document-order
reading, and the spread expands that definition's selection set. -/
theorem fragment_map_last_definition_wins_witness :
    buildFragmentMap duplicateFragmentDocument "Dup" = some duplicateSecondFragment
    ∧ lastFragmentDefinition duplicateFragmentDocument "Dup" = some duplicateSecondFragment
    ∧ checkFragmentSpread (buildFragmentMap duplicateFragmentDocument) exampleSchema 8
        queryTypeDef "Dup"
      = checkSelectionSet (buildFragmentMap duplicateFragmentDocument) exampleSchema 7
          (resolveCondition exampleSchema queryTypeDef duplicateSecondFragment.typeCondition)
          duplicateSecondFragment.selectionSet := by
  refine ⟨rfl, ?_, ?_⟩
  · exact (fragment_map_last_definition_wins.1 duplicateFragmentDocument "Dup").symm.trans rfl
  · exact fragment_map_last_definition_wins.2 duplicateFragmentDocument "Dup" exampleSchema 7
      queryTypeDef duplicateSecondFragment rfl

/-- Spreading the self-cyclic fragment `A` exhausts any fuel: three
evaluation steps bring the traversal back to the same spread with strictly
smaller fuel, so no fuel bound completes the walk. -/
theorem selfCycle_selection_none :
    ∀ (n : Nat) (p : TypeDef),
      checkSelectionSet (buildFragmentMap selfCycleDocument) exampleSchema n p
        [Selection.fragmentSpread "A"] = none := by
  intro n
  induction n using Nat.strong_induction_on with
  | h n ih =>
    match n with
    | 0 => intro p; rfl
    | 1 => intro p; rfl
    | 2 => intro p; rfl
    | (j + 3) =>
      intro p
      have hj := ih j (by omega) (resolveCondition exampleSchema p selfCycleFragment.typeCondition)
      have hstep : checkSelectionSet (buildFragmentMap selfCycleDocument) exampleSchema (j + 3) p
            [Selection.fragmentSpread "A"]
          = (checkSelectionSet (buildFragmentMap selfCycleDocument) exampleSchema j
               (resolveCondition exampleSchema p selfCycleFragment.typeCondition)
               selfCycleFragment.selectionSet).bind (fun r =>
                 (checkSelectionSet (buildFragmentMap selfCycleDocument) exampleSchema (j + 2) p
                   []).map (fun rs => r ++ rs)) := rfl
      rw [hstep]
      rw [show selfCycleFragment.selectionSet = [Selection.fragmentSpread "A"] from rfl]
      rw [hj]
      rfl

/-- C2 (against the code as written): on a document whose fragment `A`
spreads itself, the evaluation never completes — it returns `none` at every
fuel bound, i.e. the source recursion never terminates.  The code has no
record of fragment names on the active call path and no other recursion
guard. -/
theorem cyclic_self_spread_diverges :
    ∀ n : Nat, traverseAndEvaluateDirectives n selfCycleDocument exampleSchema = none := by
  intro n
  have h := selfCycle_selection_none n queryTypeDef
  have hstep : traverseAndEvaluateDirectives n selfCycleDocument exampleSchema
      = (checkSelectionSet (buildFragmentMap selfCycleDocument) exampleSchema n queryTypeDef
          [Selection.fragmentSpread "A"]).bind (fun r =>
            (checkOperations (buildFragmentMap selfCycleDocument) exampleSchema n []).map
              (fun rs => r ++ rs)) := rfl
  rw [hstep, h]
  rfl

/-- Spreading either fragment of the two-fragment cycle `CycleA` / `CycleB`
exhausts any fuel. -/
theorem pairCycle_selection_none :
    ∀ n : Nat,
      (∀ p : TypeDef,
         checkSelectionSet (buildFragmentMap pairCycleDocument) exampleSchema n p
           [Selection.fragmentSpread "CycleA"] = none)
      ∧ (∀ p : TypeDef,
         checkSelectionSet (buildFragmentMap pairCycleDocument) exampleSchema n p
           [Selection.fragmentSpread "CycleB"] = none) := by
  intro n
  induction n using Nat.strong_induction_on with
  | h n ih =>
    match n with
    | 0 => exact ⟨fun p => rfl, fun p => rfl⟩
    | 1 => exact ⟨fun p => rfl, fun p => rfl⟩
    | 2 => exact ⟨fun p => rfl, fun p => rfl⟩
    | (j + 3) =>
      constructor
      · intro p
        have hj := (ih j (by omega)).2
          (resolveCondition exampleSchema p cycleFragmentA.typeCondition)
        have hstep : checkSelectionSet (buildFragmentMap pairCycleDocument) exampleSchema
              (j + 3) p [Selection.fragmentSpread "CycleA"]
            = (checkSelectionSet (buildFragmentMap pairCycleDocument) exampleSchema j
                 (resolveCondition exampleSchema p cycleFragmentA.typeCondition)
                 cycleFragmentA.selectionSet).bind (fun r =>
                   (checkSelectionSet (buildFragmentMap pairCycleDocument) exampleSchema
                     (j + 2) p []).map (fun rs => r ++ rs)) := rfl
        rw [hstep]
        rw [show cycleFragmentA.selectionSet = [Selection.fragmentSpread "CycleB"] from rfl]
        rw [hj]
        rfl
      · intro p
        have hj := (ih j (by omega)).1
          (resolveCondition exampleSchema p cycleFragmentB.typeCondition)
        have hstep : checkSelectionSet (buildFragmentMap pairCycleDocument) exampleSchema
              (j + 3) p [Selection.fragmentSpread "CycleB"]
            = (checkSelectionSet (buildFragmentMap pairCycleDocument) exampleSchema j
                 (resolveCondition exampleSchema p cycleFragmentB.typeCondition)
                 cycleFragmentB.selectionSet).bind (fun r =>
                   (checkSelectionSet (buildFragmentMap pairCycleDocument) exampleSchema
                     (j + 2) p []).map (fun rs => r ++ rs)) := rfl
        rw [hstep]
        rw [show cycleFragmentB.selectionSet = [Selection.fragmentSpread "CycleA"] from rfl]
        rw [hj]
        rfl

/-- C8 (against the code as written): evaluation is not total.  On the
document whose fragments `CycleA` and `CycleB` spread each other, the
engine returns no requirement collection at any fuel bound — the source
recursion never returns to the caller. -/
theorem cyclic_pair_spread_never_returns :
    ∀ n : Nat, traverseAndEvaluateDirectives n pairCycleDocument exampleSchema = none := by
  intro n
  have h := (pairCycle_selection_none n).1 queryTypeDef
  have hstep : traverseAndEvaluateDirectives n pairCycleDocument exampleSchema
      = (checkSelectionSet (buildFragmentMap pairCycleDocument) exampleSchema n queryTypeDef
          [Selection.fragmentSpread "CycleA"]).bind (fun r =>
            (checkOperations (buildFragmentMap pairCycleDocument) exampleSchema n []).map
              (fun rs => r ++ rs)) := rfl
  rw [hstep, h]
  rfl

/-- Reflexivity of the selection-set replacement relation. -/
theorem selsRepl_refl (F : String) (fdef : FragmentDef) :
    ∀ ss : List Selection, SelsRepl F fdef ss ss := by
  intro ss
  induction ss with
  | nil => exact SelsRepl.snil
  | cons s ts ih => exact SelsRepl.scons s s ts ts (SelRepl.srefl s) ih

/-- Reflexivity of the optional selection-set replacement relation. -/
theorem optSelsRepl_refl (F : String) (fdef : FragmentDef) :
    ∀ oss : Option (List Selection), OptSelsRepl F fdef oss oss := by
  intro oss
  cases oss with
  | none => exact OptSelsRepl.onone
  | some ss => exact OptSelsRepl.osome ss ss (selsRepl_refl F fdef ss)

/-- Core congruence: when the original registry maps `F` to `fdef` and the
rewritten document's registry is entrywise `EnvEntryRepl`-related to the
original one (entries untouched, or with spreads of `F` inline-expanded in
their bodies), replacing spreads of `F` changes no evaluation result, at
every fuel bound, for every traversal entry point. -/
theorem replPointwise (F : String) (fdef : FragmentDef)
    (env env' : String → Option FragmentDef) (schema : Schema)
    (henv : env F = some fdef)
    (henvrel : ∀ N : String, EnvEntryRepl F fdef (env N) (env' N)) :
    ∀ n : Nat,
      (∀ (p : TypeDef) (s s' : Selection), SelRepl F fdef s s' →
         checkSelection env schema n p s = checkSelection env' schema n p s')
      ∧ (∀ (p : TypeDef) (ss ss' : List Selection), SelsRepl F fdef ss ss' →
         checkSelectionSet env schema n p ss = checkSelectionSet env' schema n p ss')
      ∧ (∀ (p : TypeDef) (f : String) (oss oss' : Option (List Selection)),
         OptSelsRepl F fdef oss oss' →
         checkField env schema n p f oss = checkField env' schema n p f oss')
      ∧ (∀ (p : TypeDef) (tc : Option String) (ss ss' : List Selection),
         SelsRepl F fdef ss ss' →
         checkInlineFragment env schema n p tc ss = checkInlineFragment env' schema n p tc ss')
      ∧ (∀ (p : TypeDef) (N : String),
         checkFragmentSpread env schema n p N = checkFragmentSpread env' schema n p N) := by
  intro n
  induction n using Nat.strong_induction_on with
  | h n ih =>
    cases n with
    | zero =>
      exact ⟨fun _ _ _ _ => rfl, fun _ _ _ _ => rfl, fun _ _ _ _ _ => rfl,
             fun _ _ _ _ _ => rfl, fun _ _ => rfl⟩
    | succ n =>
      obtain ⟨ihSel, ihSets, ihField, ihInline, ihSpread⟩ := ih n (by omega)
      refine ⟨?_, ?_, ?_, ?_, ?_⟩
      · intro p s s' h
        cases h with
        | srefl s =>
          cases s with
          | field f oss =>
            show checkField env schema n p f oss = checkField env' schema n p f oss
            exact ihField p f oss oss (optSelsRepl_refl F fdef oss)
          | inlineFragment tc ss =>
            show checkInlineFragment env schema n p tc ss
              = checkInlineFragment env' schema n p tc ss
            exact ihInline p tc ss ss (selsRepl_refl F fdef ss)
          | fragmentSpread N =>
            show checkFragmentSpread env schema n p N = checkFragmentSpread env' schema n p N
            exact ihSpread p N
        | sspread =>
          show checkFragmentSpread env schema n p F
            = checkInlineFragment env' schema n p (some fdef.typeCondition) fdef.selectionSet
          cases n with
          | zero => rfl
          | succ m =>
            simp only [checkFragmentSpread, checkInlineFragment, henv]
            exact (ih m (by omega)).2.1 (resolveCondition schema p fdef.typeCondition)
              fdef.selectionSet fdef.selectionSet (selsRepl_refl F fdef fdef.selectionSet)
        | sfield f oss oss' ho =>
          show checkField env schema n p f oss = checkField env' schema n p f oss'
          exact ihField p f oss oss' ho
        | sinline tc ss ss' hs =>
          show checkInlineFragment env schema n p tc ss
            = checkInlineFragment env' schema n p tc ss'
          exact ihInline p tc ss ss' hs
      · intro p ss ss' h
        cases h with
        | snil => rfl
        | scons s s' ts ts' hs hts =>
          show (checkSelection env schema n p s).bind (fun r =>
              (checkSelectionSet env schema n p ts).map (fun rs => r ++ rs))
            = (checkSelection env' schema n p s').bind (fun r =>
              (checkSelectionSet env' schema n p ts').map (fun rs => r ++ rs))
          rw [ihSel p s s' hs, ihSets p ts ts' hts]
      · intro p f oss oss' h
        cases h with
        | onone =>
          cases hfp : fieldsOf p with
          | none => simp [checkField, hfp]
          | some fields =>
            cases hfd : fields.find? (fun d => d.name = f) with
            | none => simp [checkField, hfp, hfd]
            | some fieldDef => simp [checkField, hfp, hfd]
        | osome ss ss' hs =>
          cases hfp : fieldsOf p with
          | none => simp [checkField, hfp]
          | some fields =>
            cases hfd : fields.find? (fun d => d.name = f) with
            | none => simp [checkField, hfp, hfd]
            | some fieldDef =>
              cases hgt : getType schema (getNamedTypeName fieldDef.type) with
              | none => simp [checkField, hfp, hfd, hgt]
              | some t =>
                cases hc : isComposite t with
                | false => simp [checkField, hfp, hfd, hgt, hc]
                | true => simp [checkField, hfp, hfd, hgt, hc, ihSets t ss ss' hs]
      · intro p tc ss ss' h
        show checkSelectionSet env schema n _ ss = checkSelectionSet env' schema n _ ss'
        exact ihSets _ ss ss' h
      · intro p N
        have hrel := henvrel N
        cases hN : env N with
        | none =>
          cases hN' : env' N with
          | none => simp [checkFragmentSpread, hN, hN']
          | some g' =>
            rw [hN, hN'] at hrel
            exact hrel.elim
        | some g =>
          cases hN' : env' N with
          | none =>
            rw [hN, hN'] at hrel
            exact hrel.elim
          | some g' =>
            rw [hN, hN'] at hrel
            obtain ⟨htc, hbody⟩ := hrel
            simp only [checkFragmentSpread, hN, hN']
            rw [htc]
            exact ihSets (resolveCondition schema p g'.typeCondition)
              g.selectionSet g'.selectionSet hbody

/-- Replacement inside a document (operation bodies and fragment bodies
alike) rewrites every registry entry by `EnvEntryRepl`: lookup of any name
yields related entries. -/
theorem buildFragmentMap_envRepl (F : String) (fdef : FragmentDef) :
    ∀ (d d' : List Definition), DocRepl F fdef d d' →
      ∀ N : String, EnvEntryRepl F fdef (buildFragmentMap d N) (buildFragmentMap d' N) := by
  intro d d' h
  induction h with
  | dnil => intro N; exact True.intro
  | doper op op' rest rest' hop hsels hrest ih =>
    intro N
    have hr := ih N
    show EnvEntryRepl F fdef
      (match buildFragmentMap rest N with
       | some f => some f
       | none => none)
      (match buildFragmentMap rest' N with
       | some f => some f
       | none => none)
    cases h1 : buildFragmentMap rest N with
    | none =>
      cases h2 : buildFragmentMap rest' N with
      | none => exact True.intro
      | some g' =>
        rw [h1, h2] at hr
        exact hr.elim
    | some g =>
      cases h2 : buildFragmentMap rest' N with
      | none =>
        rw [h1, h2] at hr
        exact hr.elim
      | some g' =>
        rw [h1, h2] at hr
        exact hr
  | dfrag g g' rest rest' hname htc hsels hrest ih =>
    intro N
    have hr := ih N
    show EnvEntryRepl F fdef
      (match buildFragmentMap rest N with
       | some f => some f
       | none => if g.name = N then some g else none)
      (match buildFragmentMap rest' N with
       | some f => some f
       | none => if g'.name = N then some g' else none)
    cases h1 : buildFragmentMap rest N with
    | none =>
      cases h2 : buildFragmentMap rest' N with
      | none =>
        rw [hname]
        by_cases hq : g'.name = N
        · simp only [if_pos hq]
          exact ⟨htc, hsels⟩
        · simp only [if_neg hq]
          exact True.intro
      | some g2 =>
        rw [h1, h2] at hr
        exact hr.elim
    | some g2 =>
      cases h2 : buildFragmentMap rest' N with
      | none =>
        rw [h1, h2] at hr
        exact hr.elim
      | some g2' =>
        rw [h1, h2] at hr
        exact hr

/-- The operation loop is invariant under replacement, for
`EnvEntryRepl`-related registries whose original maps `F` to `fdef`. -/
theorem checkOperations_docRepl (F : String) (fdef : FragmentDef)
    (env env' : String → Option FragmentDef) (schema : Schema)
    (henv : env F = some fdef)
    (henvrel : ∀ N : String, EnvEntryRepl F fdef (env N) (env' N)) (fuel : Nat) :
    ∀ (d d' : List Definition), DocRepl F fdef d d' →
      checkOperations env schema fuel d = checkOperations env' schema fuel d' := by
  intro d d' h
  induction h with
  | dnil => rfl
  | doper op op' rest rest' hop hsels hrest ih =>
    show (checkOperation env schema fuel op).bind (fun r =>
        (checkOperations env schema fuel rest).map (fun rs => r ++ rs))
      = (checkOperation env' schema fuel op').bind (fun r =>
        (checkOperations env' schema fuel rest').map (fun rs => r ++ rs))
    rw [ih]
    have hops : checkOperation env schema fuel op = checkOperation env' schema fuel op' := by
      unfold checkOperation
      rw [hop]
      cases hroot : rootTypeFor schema op'.operation with
      | none => rfl
      | some rootType =>
        exact (replPointwise F fdef env env' schema henv henvrel fuel).2.1 rootType
          op.selectionSet op'.selectionSet hsels
    rw [hops]
  | dfrag g g' rest rest' hname htc hsels hrest ih =>
    show checkOperations env schema fuel rest = checkOperations env' schema fuel rest'
    exact ih

/-- C5: replacing spreads of a registered fragment, anywhere in the
document — inside operation selection sets or inside other fragments'
bodies — by the inline fragment with the same type condition and the
literal copy of the fragment's selection set yields an identical
requirement collection: the evaluation results agree at every fuel bound,
so the same records in the same order. -/
theorem fragment_spread_inline_expansion_equiv
    (schema : Schema) (d d' : List Definition) (F : String) (fdef : FragmentDef)
    (hreg : buildFragmentMap d F = some fdef)
    (hrepl : DocRepl F fdef d d') (n : Nat) :
    traverseAndEvaluateDirectives n d schema = traverseAndEvaluateDirectives n d' schema := by
  unfold traverseAndEvaluateDirectives
  exact checkOperations_docRepl F fdef (buildFragmentMap d) (buildFragmentMap d') schema
    hreg (buildFragmentMap_envRepl F fdef d d' hrepl) n d d' hrepl

/-- Witness for C5, at two concrete replacements: the spread inside an
operation (`query { secretData { ...SecretFields } }` against its inline
expansion) and the spread inside another fragment's body (`Outer` spreading
`Inner`, against `Outer` with `Inner` inline-expanded); both pairs evaluate
to the same nonempty two-record collection. -/
theorem fragment_spread_inline_expansion_equiv_witness :
    traverseAndEvaluateDirectives 32 spreadExampleDocument exampleSchema
      = traverseAndEvaluateDirectives 32 inlineExampleDocument exampleSchema
    ∧ traverseAndEvaluateDirectives 32 nestedSpreadDocument exampleSchema
      = traverseAndEvaluateDirectives 32 nestedInlineDocument exampleSchema
    ∧ traverseAndEvaluateDirectives 32 spreadExampleDocument exampleSchema
      = some [ { fieldName := "secretData", typeName := "Query",
                 scopes := some ["read.secretData"] },
               { fieldName := "nestedTwo", typeName := "SecretData",
                 scopes := some ["read.nestedTwo"] } ]
    ∧ traverseAndEvaluateDirectives 32 nestedSpreadDocument exampleSchema
      = some [ { fieldName := "secretData", typeName := "Query",
                 scopes := some ["read.secretData"] },
               { fieldName := "nestedTwo", typeName := "SecretData",
                 scopes := some ["read.nestedTwo"] } ] := by
  refine ⟨?_, ?_, rfl, rfl⟩
  · exact fragment_spread_inline_expansion_equiv exampleSchema spreadExampleDocument
      inlineExampleDocument "SecretFields" secretFieldsFragment rfl
      (DocRepl.dfrag _ _ _ _ rfl rfl
        (selsRepl_refl "SecretFields" secretFieldsFragment _)
        (DocRepl.doper _ _ _ _ rfl
          (SelsRepl.scons _ _ _ _
            (SelRepl.sfield "secretData" _ _
              (OptSelsRepl.osome _ _
                (SelsRepl.scons _ _ _ _ SelRepl.sspread SelsRepl.snil)))
            SelsRepl.snil)
          DocRepl.dnil)) 32
  · exact fragment_spread_inline_expansion_equiv exampleSchema nestedSpreadDocument
      nestedInlineDocument "Inner" innerFragment rfl
      (DocRepl.dfrag _ _ _ _ rfl rfl
        (selsRepl_refl "Inner" innerFragment _)
        (DocRepl.dfrag outerFragment outerFragmentExpanded _ _ rfl rfl
          (SelsRepl.scons _ _ _ _
            (SelRepl.sfield "secretData" _ _
              (OptSelsRepl.osome _ _
                (SelsRepl.scons _ _ _ _ SelRepl.sspread SelsRepl.snil)))
            SelsRepl.snil)
          (DocRepl.doper _ _ _ _ rfl
            (selsRepl_refl "Inner" innerFragment _)
            DocRepl.dnil))) 32
